import Mathlib

/-!
Verification of the iron condor analytics core of the market data
processing service in `python_service/main.py`.

The pure computational functions of the service are embedded here:
Black-Scholes pricing and Greeks, the probability of a leg finishing in
the money, the iron condor payoff, the strike optimizer, the strategy
scorer and rating, the expiration gate of the analysis endpoint, and
the Greeks aggregation endpoint.

Modelling conventions.  Python float arithmetic is modelled by exact
arithmetic over `ℝ` (over `ℚ` for the purely rational parts, which
keeps them computable).  The standard normal CDF (`scipy.stats.norm.cdf`),
PDF (`scipy.stats.norm.pdf`) and quantile function
(`scipy.stats.norm.ppf`) are external library functions, so they enter
the embedding as explicit function parameters; where a theorem needs a
mathematical property of the true normal CDF (such as
`cdf x + cdf (-x) = 1`) it takes that property as a hypothesis.
Python's built-in `round` (round half to even) is modelled by
`roundHalfEven`.
-/

/-- Python's built-in `round` to an integer: round to the nearest
integer, ties going to the even neighbour (banker's rounding).  At a
non-tie it agrees with Mathlib's `round` (nearest integer). -/
def roundHalfEven {α : Type} [LinearOrderedField α] [FloorRing α] (x : α) : ℤ :=
  if Int.fract x = 1 / 2 then (if ⌊x⌋ % 2 = 0 then ⌊x⌋ else ⌊x⌋ + 1) else round x

/-- Python `round(x, 2)`, as used by `calculate_strategy_score`. -/
def roundTo2 (x : ℚ) : ℚ :=
  ((roundHalfEven (x * 100) : ℤ) : ℚ) / 100

/-- Python `round(x, 4)`, as used in the per-leg Greeks breakdown. -/
def roundTo4 (x : ℚ) : ℚ :=
  ((roundHalfEven (x * 10000) : ℤ) : ℚ) / 10000

/-- The expression `round(x / 5) * 5` from `optimize_iron_condor_strikes`:
round to the nearest multiple of `5`. -/
noncomputable def roundToNearest5 (x : ℝ) : ℝ :=
  ((roundHalfEven (x / 5) : ℤ) : ℝ) * 5

/-- The qualitative strategy rating returned by `get_strategy_rating`
(the source returns the corresponding strings). -/
inductive Rating
  | Excellent
  | Good
  | Fair
  | Poor
deriving DecidableEq

/-- The option type argument `option_type`; the call sites in the source
pass the characters C and P. -/
inductive OptionRight
  | C
  | P
deriving DecidableEq

/-- A vector of the four Greeks, the value shape of `calculate_greeks`
and of the aggregation endpoint. -/
structure Greeks (α : Type) where
  delta : α
  gamma : α
  theta : α
  vega : α
deriving DecidableEq

/-- The four strikes of an iron condor, the `strikes` dictionary of the
source. -/
structure CondorStrikes (α : Type) where
  long_call : α
  short_call : α
  short_put : α
  long_put : α
deriving DecidableEq

/-- `d1` of the Black-Scholes formula, as computed in
`black_scholes_call`, `black_scholes_put` and `calculate_greeks`. -/
noncomputable def bs_d1 (S K T r sigma : ℝ) : ℝ :=
  (Real.log (S / K) + (r + 0.5 * sigma ^ 2) * T) / (sigma * Real.sqrt T)

/-- `d2 = d1 - sigma * sqrt T` of the Black-Scholes formula. -/
noncomputable def bs_d2 (S K T r sigma : ℝ) : ℝ :=
  bs_d1 S K T r sigma - sigma * Real.sqrt T

/-- `black_scholes_call` from the source: the Black-Scholes call price,
with intrinsic value `max 0 (S - K)` when `T ≤ 0`.  `cdf` abstracts
`scipy.stats.norm.cdf`. -/
noncomputable def black_scholes_call (cdf : ℝ → ℝ) (S K T r sigma : ℝ) : ℝ :=
  if T ≤ 0 then max 0 (S - K)
  else S * cdf (bs_d1 S K T r sigma)
    - K * Real.exp (-r * T) * cdf (bs_d2 S K T r sigma)

/-- `black_scholes_put` from the source: the Black-Scholes put price,
with intrinsic value `max 0 (K - S)` when `T ≤ 0`. -/
noncomputable def black_scholes_put (cdf : ℝ → ℝ) (S K T r sigma : ℝ) : ℝ :=
  if T ≤ 0 then max 0 (K - S)
  else K * Real.exp (-r * T) * cdf (-(bs_d2 S K T r sigma))
    - S * cdf (-(bs_d1 S K T r sigma))

/-- `calculate_greeks` from the source; `pdf` abstracts
`scipy.stats.norm.pdf`.  When `T ≤ 0` all four Greeks are `0`. -/
noncomputable def calculate_greeks (cdf pdf : ℝ → ℝ) (S K T r sigma : ℝ)
    (option_type : OptionRight) : Greeks ℝ :=
  if T ≤ 0 then ⟨0, 0, 0, 0⟩
  else
    let d1 := bs_d1 S K T r sigma
    let d2 := bs_d2 S K T r sigma
    let delta := match option_type with
      | OptionRight.C => cdf d1
      | OptionRight.P => cdf d1 - 1
    let theta := match option_type with
      | OptionRight.C =>
          (-S * pdf d1 * sigma / (2 * Real.sqrt T)
            - r * K * Real.exp (-r * T) * cdf d2) / 365
      | OptionRight.P =>
          (-S * pdf d1 * sigma / (2 * Real.sqrt T)
            + r * K * Real.exp (-r * T) * cdf (-d2)) / 365
    { delta := delta
      gamma := pdf d1 / (S * sigma * Real.sqrt T)
      theta := theta
      vega := S * pdf d1 * Real.sqrt T / 100 }

/-- `calculate_probability_itm` from the source: probability that the
leg finishes in the money; degenerate answer `1` or `0` when `T ≤ 0`. -/
noncomputable def calculate_probability_itm (cdf : ℝ → ℝ) (S K T sigma : ℝ)
    (option_type : OptionRight) : ℝ :=
  if T ≤ 0 then
    if (option_type = OptionRight.C ∧ S > K) ∨ (option_type = OptionRight.P ∧ S < K)
      then 1 else 0
  else
    let d2 := (Real.log (S / K) + (-0.5 * sigma ^ 2) * T) / (sigma * Real.sqrt T)
    match option_type with
    | OptionRight.C => 1 - cdf d2
    | OptionRight.P => cdf d2

/-- `calculate_iron_condor_payoff` from the source: piecewise linear
payoff of the four-leg position at underlying price `underlying_price`,
scaled by 100 shares per contract, plus the net credit. -/
noncomputable def calculate_iron_condor_payoff (underlying_price : ℝ)
    (strikes : CondorStrikes ℝ) (net_credit : ℝ) : ℝ :=
  let lc := strikes.long_call
  let sc := strikes.short_call
  let sp := strikes.short_put
  let lp := strikes.long_put
  let call_pnl : ℝ :=
    if underlying_price ≤ sc then 0
    else if underlying_price ≥ lc then -(lc - sc)
    else -(underlying_price - sc)
  let put_pnl : ℝ :=
    if underlying_price ≥ sp then 0
    else if underlying_price ≤ lp then -(sp - lp)
    else -(sp - underlying_price)
  (call_pnl + put_pnl) * 100 + net_credit

/-- The strike values computed by `optimize_iron_condor_strikes` before
the final rounding to multiples of 5 (the local variables
`short_call_strike`, `short_put_strike`, `long_call_strike`,
`long_put_strike` of the source).  `ppf` abstracts
`scipy.stats.norm.ppf`. -/
noncomputable def optimize_iron_condor_raw (ppf : ℝ → ℝ)
    (current_price T sigma target_pop wing_width : ℝ) : CondorStrikes ℝ :=
  let price_std := current_price * sigma * Real.sqrt T
  let z_score := ppf ((1 + target_pop) / 2)
  let short_call_strike := current_price + z_score * price_std
  let short_put_strike := current_price - z_score * price_std
  { long_call := short_call_strike + wing_width
    short_call := short_call_strike
    short_put := short_put_strike
    long_put := short_put_strike - wing_width }

/-- `optimize_iron_condor_strikes` from the source: the raw strikes,
each rounded with `round(x / 5) * 5`. -/
noncomputable def optimize_iron_condor_strikes (ppf : ℝ → ℝ)
    (current_price T sigma target_pop wing_width : ℝ) : CondorStrikes ℝ :=
  let raw := optimize_iron_condor_raw ppf current_price T sigma target_pop wing_width
  { long_call := roundToNearest5 raw.long_call
    short_call := roundToNearest5 raw.short_call
    short_put := roundToNearest5 raw.short_put
    long_put := roundToNearest5 raw.long_put }

/-- `calculate_strategy_score` from the source: weighted blend of the
return-on-risk, probability-of-profit and time components, rounded to
two decimals. -/
def calculate_strategy_score (return_on_risk probability_of_profit : ℚ)
    (days_to_expiration : ℤ) : ℚ :=
  let ror_score := min 100 (return_on_risk * 2)
  let pop_score := probability_of_profit
  let time_score : ℚ :=
    if 30 ≤ days_to_expiration ∧ days_to_expiration ≤ 45 then 100
    else if days_to_expiration < 30 then
      max 0 (((days_to_expiration : ℚ) / 30) * 100)
    else
      max 0 (100 - (((days_to_expiration : ℚ) - 45) * 2))
  roundTo2 (ror_score * 0.3 + pop_score * 0.5 + time_score * 0.2)

/-- `get_strategy_rating` from the source: ordinal rating from the blend
`ROR * 2 * 0.4 + POP * 0.6`. -/
def get_strategy_rating (return_on_risk probability_of_profit : ℚ) : Rating :=
  let score := return_on_risk * 2 * 0.4 + probability_of_profit * 0.6
  if 80 ≤ score then Rating.Excellent
  else if 65 ≤ score then Rating.Good
  else if 50 ≤ score then Rating.Fair
  else Rating.Poor

/-- The `days_to_expiration` computation of `analyze_iron_condor`:
datetimes are modelled as rational timestamps in seconds, and Python's
`timedelta.days` is the floor of the difference divided by 86400. -/
def analysis_days_to_expiration (expiration now : ℚ) : ℤ :=
  ⌊(expiration - now) / 86400⌋

/-- The expiration gate of `analyze_iron_condor`: the request is
rejected with the invalid-expiration error iff `days_to_expiration ≤ 0`.
The check precedes all pricing in the source, so a rejected request
produces no partial report. -/
def expiration_rejected (expiration now : ℚ) : Bool :=
  analysis_days_to_expiration expiration now ≤ 0

/-- One leg's input vector for the Greeks aggregation endpoint: each
Greek field of the request dictionary may be absent. -/
structure LegGreeksInput where
  delta : Option ℚ
  gamma : Option ℚ
  theta : Option ℚ
  vega : Option ℚ
deriving DecidableEq

/-- `dict.get(key, 0)` on a leg's field: a missing field reads as `0`. -/
def legGet (o : Option ℚ) : ℚ := o.getD 0

/-- The numeric result of `calculate_iron_condor_greeks`: the portfolio
Greeks and the rounded per-leg breakdown. -/
structure CondorGreeksResult where
  portfolio_greeks : Greeks ℚ
  long_call_leg : Greeks ℚ
  short_call_leg : Greeks ℚ
  short_put_leg : Greeks ℚ
  long_put_leg : Greeks ℚ
deriving DecidableEq

/-- `calculate_iron_condor_greeks` from the source: net portfolio Greeks
(long legs negated) scaled by `contracts * 100`, and the per-leg
breakdown rounded to 4 decimals.  Missing fields read as `0` via
`dict.get`, so no input shape causes an error. -/
def calculate_iron_condor_greeks (lc sc sp lp : LegGreeksInput)
    (contracts : ℕ) : CondorGreeksResult :=
  let c : ℚ := (contracts : ℚ)
  { portfolio_greeks :=
      { delta := (-(legGet lc.delta) + legGet sc.delta + legGet sp.delta
          + -(legGet lp.delta)) * c * 100
        gamma := (-(legGet lc.gamma) + legGet sc.gamma + legGet sp.gamma
          + -(legGet lp.gamma)) * c * 100
        theta := (-(legGet lc.theta) + legGet sc.theta + legGet sp.theta
          + -(legGet lp.theta)) * c * 100
        vega := (-(legGet lc.vega) + legGet sc.vega + legGet sp.vega
          + -(legGet lp.vega)) * c * 100 }
    long_call_leg :=
      { delta := roundTo4 (-(legGet lc.delta) * c * 100)
        gamma := roundTo4 (-(legGet lc.gamma) * c * 100)
        theta := roundTo4 (-(legGet lc.theta) * c * 100)
        vega := roundTo4 (-(legGet lc.vega) * c * 100) }
    short_call_leg :=
      { delta := roundTo4 (legGet sc.delta * c * 100)
        gamma := roundTo4 (legGet sc.gamma * c * 100)
        theta := roundTo4 (legGet sc.theta * c * 100)
        vega := roundTo4 (legGet sc.vega * c * 100) }
    short_put_leg :=
      { delta := roundTo4 (legGet sp.delta * c * 100)
        gamma := roundTo4 (legGet sp.gamma * c * 100)
        theta := roundTo4 (legGet sp.theta * c * 100)
        vega := roundTo4 (legGet sp.vega * c * 100) }
    long_put_leg :=
      { delta := roundTo4 (-(legGet lp.delta) * c * 100)
        gamma := roundTo4 (-(legGet lp.gamma) * c * 100)
        theta := roundTo4 (-(legGet lp.theta) * c * 100)
        vega := roundTo4 (-(legGet lp.vega) * c * 100) }
  }

/-- Replace every missing Greek field of a leg by an explicit `0`,
leaving present fields unchanged. -/
def fillMissing (g : LegGreeksInput) : LegGreeksInput :=
  { delta := some (legGet g.delta)
    gamma := some (legGet g.gamma)
    theta := some (legGet g.theta)
    vega := some (legGet g.vega) }

/-- A concrete symmetric CDF stand-in used by closed witness instances. -/
noncomputable def halfCdf : ℝ → ℝ := fun _ => 1 / 2

/-- A concrete quantile stand-in used by closed instances of the strike
optimizer. -/
noncomputable def constPpf : ℝ → ℝ := fun _ => 1

/-- The corrected specification of the strike optimizer: every returned
strike is an integer multiple of 5 and is the nearest such multiple of
its pre-rounding value (within 5/2 of it); before rounding both wings
are exactly `wing_width` beyond the short strikes; after rounding
`short_call ≤ long_call` and `long_put ≤ short_put`, strictly so
whenever the wing width exceeds 5 (for a wing width of at most 5 the
rounded strikes can coincide). -/
def OptimizerStrikesSpec (ppf : ℝ → ℝ) (S T sigma p w : ℝ) : Prop :=
  let rounded := optimize_iron_condor_strikes ppf S T sigma p w
  let raw := optimize_iron_condor_raw ppf S T sigma p w
  ((∃ a : ℤ, rounded.long_call = (a : ℝ) * 5) ∧
   (∃ a : ℤ, rounded.short_call = (a : ℝ) * 5) ∧
   (∃ a : ℤ, rounded.short_put = (a : ℝ) * 5) ∧
   (∃ a : ℤ, rounded.long_put = (a : ℝ) * 5)) ∧
  (|rounded.long_call - raw.long_call| ≤ 5 / 2 ∧
   |rounded.short_call - raw.short_call| ≤ 5 / 2 ∧
   |rounded.short_put - raw.short_put| ≤ 5 / 2 ∧
   |rounded.long_put - raw.long_put| ≤ 5 / 2) ∧
  (raw.long_call - raw.short_call = w ∧ raw.short_put - raw.long_put = w) ∧
  (rounded.short_call ≤ rounded.long_call ∧ rounded.long_put ≤ rounded.short_put) ∧
  (5 < w → rounded.short_call < rounded.long_call ∧ rounded.long_put < rounded.short_put)

/-! ### Helper lemmas -/

theorem roundHalfEven_intCast {α : Type} [LinearOrderedField α] [FloorRing α] (n : ℤ) :
    roundHalfEven ((n : ℤ) : α) = n := by
  unfold roundHalfEven
  rw [Int.fract_intCast, if_neg (by norm_num), round_intCast]

theorem abs_sub_roundHalfEven {α : Type} [LinearOrderedField α] [FloorRing α] (x : α) :
    |x - (roundHalfEven x : α)| ≤ 1 / 2 := by
  unfold roundHalfEven
  split_ifs with h1 h2
  · have hx : x - ⌊x⌋ = 1 / 2 := by rw [Int.self_sub_floor]; exact h1
    rw [abs_le]
    constructor <;> linarith
  · have hx : x - ⌊x⌋ = 1 / 2 := by rw [Int.self_sub_floor]; exact h1
    rw [abs_le]
    push_cast
    constructor <;> linarith
  · exact abs_sub_round x

theorem roundHalfEven_mono {α : Type} [LinearOrderedField α] [FloorRing α]
    {x y : α} (h : x ≤ y) : roundHalfEven x ≤ roundHalfEven y := by
  by_contra hc
  push_neg at hc
  have h1 : ((roundHalfEven y : ℤ) : α) + 1 ≤ ((roundHalfEven x : ℤ) : α) := by
    exact_mod_cast Int.add_one_le_iff.mpr hc
  have hx := abs_le.mp (abs_sub_roundHalfEven x)
  have hy := abs_le.mp (abs_sub_roundHalfEven y)
  have hxy : x = y := le_antisymm h (by linarith [hx.1, hx.2, hy.1, hy.2])
  rw [hxy] at hc
  exact lt_irrefl _ hc

theorem roundToNearest5_mono {x y : ℝ} (h : x ≤ y) :
    roundToNearest5 x ≤ roundToNearest5 y := by
  unfold roundToNearest5
  have hm : roundHalfEven (x / 5) ≤ roundHalfEven (y / 5) :=
    roundHalfEven_mono (by linarith)
  have h5 : ((roundHalfEven (x / 5) : ℤ) : ℝ) ≤ ((roundHalfEven (y / 5) : ℤ) : ℝ) := by
    exact_mod_cast hm
  linarith

theorem abs_roundToNearest5_sub (x : ℝ) : |roundToNearest5 x - x| ≤ 5 / 2 := by
  unfold roundToNearest5
  have h := abs_sub_roundHalfEven (x / 5)
  have he : ((roundHalfEven (x / 5) : ℤ) : ℝ) * 5 - x
      = -(5 * (x / 5 - ((roundHalfEven (x / 5) : ℤ) : ℝ))) := by ring
  rw [he, abs_neg, abs_mul, abs_of_nonneg (by norm_num : (0:ℝ) ≤ 5)]
  linarith [h]

theorem call_spread_pnl_eq (U sc lc : ℝ) (h : sc < lc) :
    (if U ≤ sc then (0:ℝ) else if U ≥ lc then -(lc - sc) else -(U - sc))
      = -(max 0 (min U lc - sc)) := by
  split_ifs with h1 h2
  · have hm : min U lc - sc ≤ 0 := by
      have := min_le_left U lc
      linarith
    rw [max_eq_left hm, neg_zero]
  · rw [min_eq_right h2, max_eq_right (by linarith : (0:ℝ) ≤ lc - sc)]
  · push_neg at h1 h2
    rw [min_eq_left h2.le, max_eq_right (by linarith : (0:ℝ) ≤ U - sc)]

theorem put_spread_pnl_eq (U sp lp : ℝ) (h : lp < sp) :
    (if U ≥ sp then (0:ℝ) else if U ≤ lp then -(sp - lp) else -(sp - U))
      = -(max 0 (sp - max U lp)) := by
  split_ifs with h1 h2
  · have hm : sp - max U lp ≤ 0 := by
      have := le_max_left U lp
      linarith
    rw [max_eq_left hm, neg_zero]
  · rw [max_eq_right h2, max_eq_right (by linarith : (0:ℝ) ≤ sp - lp)]
  · push_neg at h1 h2
    rw [max_eq_left h2.le, max_eq_right (by linarith : (0:ℝ) ≤ sp - U)]

theorem calculate_iron_condor_payoff_eq (k : CondorStrikes ℝ) (net_credit : ℝ)
    (hput : k.long_put < k.short_put) (hcall : k.short_call < k.long_call) (U : ℝ) :
    calculate_iron_condor_payoff U k net_credit
      = (-(max 0 (min U k.long_call - k.short_call))
          + -(max 0 (k.short_put - max U k.long_put))) * 100 + net_credit := by
  simp only [calculate_iron_condor_payoff]
  rw [call_spread_pnl_eq U k.short_call k.long_call hcall,
      put_spread_pnl_eq U k.short_put k.long_put hput]

theorem calculate_iron_condor_payoff_continuous (k : CondorStrikes ℝ) (net_credit : ℝ)
    (hput : k.long_put < k.short_put) (hcall : k.short_call < k.long_call) :
    Continuous fun U => calculate_iron_condor_payoff U k net_credit := by
  have hc : Continuous fun U : ℝ =>
      (-(max 0 (min U k.long_call - k.short_call))
        + -(max 0 (k.short_put - max U k.long_put))) * 100 + net_credit := by
    apply Continuous.add _ continuous_const
    apply Continuous.mul _ continuous_const
    apply Continuous.add
    · exact (continuous_const.max ((continuous_id.min continuous_const).sub
        continuous_const)).neg
    · exact (continuous_const.max (continuous_const.sub (continuous_id.max
        continuous_const))).neg
  exact hc.congr fun U => (calculate_iron_condor_payoff_eq k net_credit hput hcall U).symm

/-! ### Claim theorems -/

/-- Claim C1: for every S = K > 0, every r, every sigma > 0 and every
T > 0, call price minus put price equals S - K * exp (-r * T)
(put-call parity) within tolerance 1e-6.  For any CDF satisfying the
normal symmetry `cdf x + cdf (-x) = 1` the parity is in fact exact. -/
theorem c1_put_call_parity (cdf : ℝ → ℝ) (S K T r sigma : ℝ)
    (hcdf : ∀ x, cdf x + cdf (-x) = 1)
    (hS : 0 < S) (hSK : S = K) (hsig : 0 < sigma) (hT : 0 < T) :
    |black_scholes_call cdf S K T r sigma - black_scholes_put cdf S K T r sigma
      - (S - K * Real.exp (-r * T))| ≤ 1 / 1000000 := by
  have hT' : ¬ T ≤ 0 := not_le.mpr hT
  have h : black_scholes_call cdf S K T r sigma - black_scholes_put cdf S K T r sigma
      - (S - K * Real.exp (-r * T)) = 0 := by
    simp only [black_scholes_call, black_scholes_put, if_neg hT']
    linear_combination S * hcdf (bs_d1 S K T r sigma)
      - K * Real.exp (-r * T) * hcdf (bs_d2 S K T r sigma)
  rw [h]
  norm_num

/-- Claim C1 witness: the parity instance at S = K = 1, T = 1, r = 0,
sigma = 1, with a concrete symmetric CDF. -/
theorem c1_put_call_parity_witness :
    (∀ x : ℝ, halfCdf x + halfCdf (-x) = 1) ∧ (0:ℝ) < 1 ∧ ((1:ℝ) = 1) ∧
    (0:ℝ) < 1 ∧ (0:ℝ) < 1 ∧
    |black_scholes_call halfCdf 1 1 1 0 1 - black_scholes_put halfCdf 1 1 1 0 1
      - (1 - 1 * Real.exp (-0 * 1))| ≤ 1 / 1000000 := by
  have hc : ∀ x : ℝ, halfCdf x + halfCdf (-x) = 1 := fun x => by
    simp only [halfCdf]
    norm_num
  exact ⟨hc, one_pos, rfl, one_pos, one_pos,
    c1_put_call_parity halfCdf 1 1 1 0 1 hc one_pos rfl one_pos one_pos⟩

/-- Claim C3: for every S > 0, K > 0, any r and sigma, and every T ≤ 0,
the call price is the intrinsic value max 0 (S - K), the put price is
max 0 (K - S), and all four Greeks are 0 for either option type, with
no error raised (the embedded functions are total). -/
theorem c3_expired_intrinsic (cdf pdf : ℝ → ℝ) (S K T r sigma : ℝ)
    (hS : 0 < S) (hK : 0 < K) (hT : T ≤ 0) :
    black_scholes_call cdf S K T r sigma = max 0 (S - K) ∧
    black_scholes_put cdf S K T r sigma = max 0 (K - S) ∧
    ∀ ot : OptionRight, calculate_greeks cdf pdf S K T r sigma ot = ⟨0, 0, 0, 0⟩ := by
  refine ⟨?_, ?_, fun ot => ?_⟩ <;>
    simp [black_scholes_call, black_scholes_put, calculate_greeks, hT]

/-- Claim C3 witness: the expired-case values at S = 1, K = 2, T = 0. -/
theorem c3_expired_intrinsic_witness :
    (0:ℝ) < 1 ∧ (0:ℝ) < 2 ∧ ((0:ℝ) ≤ 0) ∧
    (black_scholes_call halfCdf 1 2 0 0 1 = max 0 (1 - 2) ∧
     black_scholes_put halfCdf 1 2 0 0 1 = max 0 (2 - 1) ∧
     ∀ ot : OptionRight, calculate_greeks halfCdf halfCdf 1 2 0 0 1 ot = ⟨0, 0, 0, 0⟩) :=
  ⟨one_pos, two_pos, le_refl 0,
    c3_expired_intrinsic halfCdf halfCdf 1 2 0 0 1 one_pos two_pos (le_refl 0)⟩

/-- Claim C4: for S, K, sigma > 0 and T > 0 the probability of finishing
in the money is 1 - cdf d2 for a call and cdf d2 for a put, with the
drift-adjusted d2 = (log (S / K) - sigma ^ 2 * T / 2) / (sigma * sqrt T);
for every T ≤ 0 it is 1 when the leg is already in the money (K < S for
a call, S < K for a put) and 0 otherwise. -/
theorem c4_probability_itm_spec (cdf : ℝ → ℝ) (S K T sigma : ℝ)
    (hS : 0 < S) (hK : 0 < K) (hsig : 0 < sigma) :
    (0 < T → calculate_probability_itm cdf S K T sigma OptionRight.C
        = 1 - cdf ((Real.log (S / K) - sigma ^ 2 * T / 2) / (sigma * Real.sqrt T))) ∧
    (0 < T → calculate_probability_itm cdf S K T sigma OptionRight.P
        = cdf ((Real.log (S / K) - sigma ^ 2 * T / 2) / (sigma * Real.sqrt T))) ∧
    (∀ ot : OptionRight, T ≤ 0 → calculate_probability_itm cdf S K T sigma ot
        = if (ot = OptionRight.C ∧ K < S) ∨ (ot = OptionRight.P ∧ S < K)
            then 1 else 0) := by
  have harg : (Real.log (S / K) + (-0.5 * sigma ^ 2) * T) / (sigma * Real.sqrt T)
      = (Real.log (S / K) - sigma ^ 2 * T / 2) / (sigma * Real.sqrt T) := by ring
  refine ⟨fun hT => ?_, fun hT => ?_, fun ot hT => ?_⟩
  · simp only [calculate_probability_itm, if_neg (not_le.mpr hT)]
    rw [harg]
  · simp only [calculate_probability_itm, if_neg (not_le.mpr hT)]
    rw [harg]
  · simp only [calculate_probability_itm, if_pos hT, gt_iff_lt]

/-- Claim C4 witness: the specification instance at S = 1, K = 2,
T = 1, sigma = 1. -/
theorem c4_probability_itm_spec_witness :
    (0:ℝ) < 1 ∧ (0:ℝ) < 2 ∧ (0:ℝ) < 1 ∧
    ((0 < (1:ℝ) → calculate_probability_itm halfCdf 1 2 1 1 OptionRight.C
        = 1 - halfCdf ((Real.log (1 / 2) - 1 ^ 2 * 1 / 2) / (1 * Real.sqrt 1))) ∧
     (0 < (1:ℝ) → calculate_probability_itm halfCdf 1 2 1 1 OptionRight.P
        = halfCdf ((Real.log (1 / 2) - 1 ^ 2 * 1 / 2) / (1 * Real.sqrt 1))) ∧
     (∀ ot : OptionRight, (1:ℝ) ≤ 0 → calculate_probability_itm halfCdf 1 2 1 1 ot
        = if (ot = OptionRight.C ∧ (2:ℝ) < 1) ∨ (ot = OptionRight.P ∧ (1:ℝ) < 2)
            then 1 else 0)) :=
  ⟨one_pos, two_pos, one_pos,
    c4_probability_itm_spec halfCdf 1 2 1 1 one_pos two_pos one_pos⟩

/-- Claim C5: for strikes with long_put < short_put ≤ short_call <
long_call and any net credit, the payoff as a function of the underlying
price is continuous at each of the four strikes (the adjoining linear
branches agree at every breakpoint). -/
theorem c5_payoff_continuous_at_strikes (k : CondorStrikes ℝ) (net_credit : ℝ)
    (h1 : k.long_put < k.short_put) (h2 : k.short_put ≤ k.short_call)
    (h3 : k.short_call < k.long_call) :
    ContinuousAt (fun U => calculate_iron_condor_payoff U k net_credit) k.long_call ∧
    ContinuousAt (fun U => calculate_iron_condor_payoff U k net_credit) k.short_call ∧
    ContinuousAt (fun U => calculate_iron_condor_payoff U k net_credit) k.short_put ∧
    ContinuousAt (fun U => calculate_iron_condor_payoff U k net_credit) k.long_put := by
  have hc := calculate_iron_condor_payoff_continuous k net_credit h1 h3
  exact ⟨hc.continuousAt, hc.continuousAt, hc.continuousAt, hc.continuousAt⟩

/-- Claim C5 witness: continuity at the four strikes of the quadruple
4400 < 4450 ≤ 4550 < 4600 with credit 250. -/
theorem c5_payoff_continuous_at_strikes_witness :
    ((4400:ℝ) < 4450 ∧ (4450:ℝ) ≤ 4550 ∧ (4550:ℝ) < 4600) ∧
    (ContinuousAt (fun U => calculate_iron_condor_payoff U
        ⟨4600, 4550, 4450, 4400⟩ 250) 4600 ∧
     ContinuousAt (fun U => calculate_iron_condor_payoff U
        ⟨4600, 4550, 4450, 4400⟩ 250) 4550 ∧
     ContinuousAt (fun U => calculate_iron_condor_payoff U
        ⟨4600, 4550, 4450, 4400⟩ 250) 4450 ∧
     ContinuousAt (fun U => calculate_iron_condor_payoff U
        ⟨4600, 4550, 4450, 4400⟩ 250) 4400) :=
  ⟨⟨by norm_num, by norm_num, by norm_num⟩,
    c5_payoff_continuous_at_strikes ⟨4600, 4550, 4450, 4400⟩ 250
      (by norm_num) (by norm_num) (by norm_num)⟩

/-- Claim C10: between the two short strikes the payoff equals the net
credit exactly, and the net credit is the maximum of the payoff over all
underlying prices, so the maximum profit is attained on the whole
interval between the short strikes. -/
theorem c10_payoff_plateau (k : CondorStrikes ℝ) (net_credit U : ℝ)
    (h1 : k.long_put < k.short_put) (h2 : k.short_put ≤ k.short_call)
    (h3 : k.short_call < k.long_call)
    (hU1 : k.short_put ≤ U) (hU2 : U ≤ k.short_call) :
    calculate_iron_condor_payoff U k net_credit = net_credit ∧
    ∀ V : ℝ, calculate_iron_condor_payoff V k net_credit ≤ net_credit := by
  constructor
  · simp only [calculate_iron_condor_payoff, if_pos hU2, if_pos hU1]
    ring
  · intro V
    simp only [calculate_iron_condor_payoff]
    split_ifs <;> linarith

/-- Claim C10 witness: the payoff at U = 4500 inside the short strikes
4450 ≤ 4500 ≤ 4550 equals the credit 250. -/
theorem c10_payoff_plateau_witness :
    ((4400:ℝ) < 4450 ∧ (4450:ℝ) ≤ 4550 ∧ (4550:ℝ) < 4600 ∧
     (4450:ℝ) ≤ 4500 ∧ (4500:ℝ) ≤ 4550) ∧
    (calculate_iron_condor_payoff 4500 ⟨4600, 4550, 4450, 4400⟩ 250 = 250 ∧
     ∀ V : ℝ, calculate_iron_condor_payoff V ⟨4600, 4550, 4450, 4400⟩ 250 ≤ 250) :=
  ⟨⟨by norm_num, by norm_num, by norm_num, by norm_num, by norm_num⟩,
    c10_payoff_plateau ⟨4600, 4550, 4450, 4400⟩ 250 4500
      (by norm_num) (by norm_num) (by norm_num) (by norm_num) (by norm_num)⟩

/-- Claim C9: in the Greeks aggregation a missing Greek field of any leg
contributes exactly 0 to the portfolio Greeks and to that leg's
breakdown and never causes an error: the result equals the aggregation
of the same request with every missing field replaced by an explicit 0. -/
theorem c9_missing_greeks_default_zero (lc sc sp lp : LegGreeksInput) (contracts : ℕ) :
    calculate_iron_condor_greeks (fillMissing lc) (fillMissing sc)
        (fillMissing sp) (fillMissing lp) contracts
      = calculate_iron_condor_greeks lc sc sp lp contracts := rfl

/-- Claim C6 counterexample: an expiration one hour in the strictly
future (expiration = 3600 s, now = 0 s) is nevertheless rejected by the
analysis gate, refuting that the rejection happens exactly for past or
present expirations. -/
theorem c6_counterexample :
    (0:ℚ) < 3600 ∧ expiration_rejected 3600 0 = true := by
  constructor
  · norm_num
  · have hfl : ⌊(3600:ℚ) / 86400⌋ = 0 := by
      rw [Int.floor_eq_iff]
      constructor <;> norm_num
    simp [expiration_rejected, analysis_days_to_expiration, hfl]

/-- Claim C6 amended: the analysis rejects with the invalid-expiration
error exactly when the expiration moment is less than one full day
(86400 s) after the current moment; in particular every past or present
expiration is rejected, the check precedes all pricing (so no partial
report is produced), and every expiration at least one day ahead
passes the gate. -/
theorem c6_expiration_gate (expiration now : ℚ) :
    expiration_rejected expiration now = true ↔ expiration < now + 86400 := by
  simp only [expiration_rejected, analysis_days_to_expiration, decide_eq_true_eq]
  rw [Int.floor_le_iff]
  constructor
  · intro h
    push_cast at h
    nlinarith
  · intro h
    push_cast
    nlinarith

/-- Claim C2 counterexample: with current price 90, T = 1, sigma = 1/9,
target probability 0.7 and wing width 2 (all admissible inputs), and a
quantile function returning 1, the raw short call is 100 and the raw
long call is 102, and both round to the multiple-of-5 strike 100, so
the returned strikes do not satisfy the strict long_call > short_call
demanded by the claim. -/
theorem c2_counterexample :
    ((0:ℝ) < 90 ∧ (0:ℝ) < 1 ∧ (0:ℝ) < 1/9 ∧ (1:ℝ)/2 ≤ 7/10 ∧
     (7:ℝ)/10 ≤ 95/100 ∧ (0:ℝ) < 2) ∧
    ¬ ((optimize_iron_condor_strikes constPpf 90 1 (1/9) (7/10) 2).short_call
        < (optimize_iron_condor_strikes constPpf 90 1 (1/9) (7/10) 2).long_call) := by
  have hraw_sc : (optimize_iron_condor_raw constPpf 90 1 (1/9) (7/10) 2).short_call
      = 100 := by
    simp only [optimize_iron_condor_raw, constPpf, Real.sqrt_one]
    norm_num
  have hraw_lc : (optimize_iron_condor_raw constPpf 90 1 (1/9) (7/10) 2).long_call
      = 102 := by
    simp only [optimize_iron_condor_raw, constPpf, Real.sqrt_one]
    norm_num
  have h100 : roundToNearest5 (100:ℝ) = 100 := by
    have he : (100:ℝ) / 5 = ((20:ℤ) : ℝ) := by norm_num
    rw [roundToNearest5, he, roundHalfEven_intCast]
    norm_num
  have h102 : roundToNearest5 (102:ℝ) = 100 := by
    have hfl : ⌊(102:ℝ) / 5⌋ = 20 := by
      rw [Int.floor_eq_iff]
      constructor <;> norm_num
    have hfr : Int.fract ((102:ℝ) / 5) ≠ 1 / 2 := by
      have h1 : Int.fract ((102:ℝ) / 5) = 102 / 5 - ((20:ℤ) : ℝ) := by
        rw [← Int.self_sub_floor, hfl]
      rw [h1]
      norm_num
    have hrd : round ((102:ℝ) / 5) = 20 := by
      rw [round_eq]
      have he : (102:ℝ) / 5 + 1 / 2 = 209 / 10 := by norm_num
      rw [he, Int.floor_eq_iff]
      constructor <;> norm_num
    rw [roundToNearest5, roundHalfEven, if_neg hfr, hrd]
    norm_num
  have hsc : (optimize_iron_condor_strikes constPpf 90 1 (1/9) (7/10) 2).short_call
      = 100 := by
    show roundToNearest5 ((optimize_iron_condor_raw constPpf 90 1 (1/9) (7/10) 2).short_call)
      = 100
    rw [hraw_sc, h100]
  have hlc : (optimize_iron_condor_strikes constPpf 90 1 (1/9) (7/10) 2).long_call
      = 100 := by
    show roundToNearest5 ((optimize_iron_condor_raw constPpf 90 1 (1/9) (7/10) 2).long_call)
      = 100
    rw [hraw_lc, h102]
  refine ⟨⟨by norm_num, by norm_num, by norm_num, by norm_num, by norm_num, by norm_num⟩, ?_⟩
  rw [hsc, hlc]
  exact lt_irrefl 100

/-- Claim C2 amended: for every admissible input the optimizer satisfies
`OptimizerStrikesSpec`: all four strikes are multiples of 5, each the
nearest multiple of 5 of its raw value, the raw wings are exactly
`wing_width` wide, and the rounded strikes are ordered, strictly when
the wing width exceeds 5. -/
theorem c2_optimizer_strikes (ppf : ℝ → ℝ) (S T sigma p w : ℝ)
    (hS : 0 < S) (hT : 0 < T) (hsig : 0 < sigma)
    (hp1 : 1 / 2 ≤ p) (hp2 : p ≤ 95 / 100) (hw : 0 < w) :
    OptimizerStrikesSpec ppf S T sigma p w := by
  simp only [OptimizerStrikesSpec]
  have hlc : (optimize_iron_condor_strikes ppf S T sigma p w).long_call
      = roundToNearest5 ((optimize_iron_condor_raw ppf S T sigma p w).long_call) := rfl
  have hsc : (optimize_iron_condor_strikes ppf S T sigma p w).short_call
      = roundToNearest5 ((optimize_iron_condor_raw ppf S T sigma p w).short_call) := rfl
  have hsp : (optimize_iron_condor_strikes ppf S T sigma p w).short_put
      = roundToNearest5 ((optimize_iron_condor_raw ppf S T sigma p w).short_put) := rfl
  have hlp : (optimize_iron_condor_strikes ppf S T sigma p w).long_put
      = roundToNearest5 ((optimize_iron_condor_raw ppf S T sigma p w).long_put) := rfl
  have hraw_lc : (optimize_iron_condor_raw ppf S T sigma p w).long_call
      = (optimize_iron_condor_raw ppf S T sigma p w).short_call + w := rfl
  have hraw_lp : (optimize_iron_condor_raw ppf S T sigma p w).long_put
      = (optimize_iron_condor_raw ppf S T sigma p w).short_put - w := rfl
  refine ⟨⟨?_, ?_, ?_, ?_⟩, ⟨?_, ?_, ?_, ?_⟩, ⟨?_, ?_⟩, ⟨?_, ?_⟩, fun h5 => ⟨?_, ?_⟩⟩
  · exact ⟨roundHalfEven ((optimize_iron_condor_raw ppf S T sigma p w).long_call / 5), rfl⟩
  · exact ⟨roundHalfEven ((optimize_iron_condor_raw ppf S T sigma p w).short_call / 5), rfl⟩
  · exact ⟨roundHalfEven ((optimize_iron_condor_raw ppf S T sigma p w).short_put / 5), rfl⟩
  · exact ⟨roundHalfEven ((optimize_iron_condor_raw ppf S T sigma p w).long_put / 5), rfl⟩
  · rw [hlc]
    exact abs_roundToNearest5_sub _
  · rw [hsc]
    exact abs_roundToNearest5_sub _
  · rw [hsp]
    exact abs_roundToNearest5_sub _
  · rw [hlp]
    exact abs_roundToNearest5_sub _
  · rw [hraw_lc]
    ring
  · rw [hraw_lp]
    ring
  · rw [hsc, hlc]
    exact roundToNearest5_mono (by rw [hraw_lc]; linarith)
  · rw [hlp, hsp]
    exact roundToNearest5_mono (by rw [hraw_lp]; linarith)
  · have k1 := abs_le.mp (abs_roundToNearest5_sub
      ((optimize_iron_condor_raw ppf S T sigma p w).short_call))
    have k2 := abs_le.mp (abs_roundToNearest5_sub
      ((optimize_iron_condor_raw ppf S T sigma p w).long_call))
    rw [hsc, hlc]
    have hw' : (optimize_iron_condor_raw ppf S T sigma p w).long_call
        = (optimize_iron_condor_raw ppf S T sigma p w).short_call + w := hraw_lc
    linarith [k1.1, k1.2, k2.1, k2.2]
  · have k1 := abs_le.mp (abs_roundToNearest5_sub
      ((optimize_iron_condor_raw ppf S T sigma p w).short_put))
    have k2 := abs_le.mp (abs_roundToNearest5_sub
      ((optimize_iron_condor_raw ppf S T sigma p w).long_put))
    rw [hlp, hsp]
    have hw' : (optimize_iron_condor_raw ppf S T sigma p w).long_put
        = (optimize_iron_condor_raw ppf S T sigma p w).short_put - w := hraw_lp
    linarith [k1.1, k1.2, k2.1, k2.2]

/-- Claim C2 witness: the amended specification at current price 100,
T = 1, sigma = 1/10, target probability 0.7, wing width 5. -/
theorem c2_optimizer_strikes_witness :
    ((0:ℝ) < 100 ∧ (0:ℝ) < 1 ∧ (0:ℝ) < 1/10 ∧ (1:ℝ)/2 ≤ 7/10 ∧
     (7:ℝ)/10 ≤ 95/100 ∧ (0:ℝ) < 5) ∧
    OptimizerStrikesSpec constPpf 100 1 (1/10) (7/10) 5 :=
  ⟨⟨by norm_num, by norm_num, by norm_num, by norm_num, by norm_num, by norm_num⟩,
    c2_optimizer_strikes constPpf 100 1 (1/10) (7/10) 5 (by norm_num) (by norm_num)
      (by norm_num) (by norm_num) (by norm_num) (by norm_num)⟩

/-- Claim C7: the rating is computed from the blend
ROR * 2 * 0.4 + POP * 0.6 and the thresholds are exactly the
half-open bands of the claim, with the boundary 80 itself rated
Excellent (so a blend of 80 exactly is Excellent and 79.999 is Good). -/
theorem c7_rating_thresholds (ror pop : ℚ) :
    (get_strategy_rating ror pop = Rating.Excellent ↔
      80 ≤ ror * 2 * 0.4 + pop * 0.6) ∧
    (get_strategy_rating ror pop = Rating.Good ↔
      65 ≤ ror * 2 * 0.4 + pop * 0.6 ∧ ror * 2 * 0.4 + pop * 0.6 < 80) ∧
    (get_strategy_rating ror pop = Rating.Fair ↔
      50 ≤ ror * 2 * 0.4 + pop * 0.6 ∧ ror * 2 * 0.4 + pop * 0.6 < 65) ∧
    (get_strategy_rating ror pop = Rating.Poor ↔
      ror * 2 * 0.4 + pop * 0.6 < 50) := by
  simp only [get_strategy_rating]
  split_ifs with h1 h2 h3 <;>
    refine ⟨?_, ?_, ?_, ?_⟩ <;>
      simp_all <;>
        first
          | linarith
          | (intro h
             linarith)

/-- Claim C8 counterexample: at ROR = 0, POP = 10/3 and 0 days to
expiration the weighted blend is 5/3, but `calculate_strategy_score`
returns 1.67 (the blend rounded to two decimals), so the function does
not return the blend itself as the claim states. -/
theorem c8_counterexample :
    calculate_strategy_score 0 (10/3) 0
      ≠ 0.3 * min 100 ((0:ℚ) * 2) + 0.5 * (10/3)
          + 0.2 * max 0 (((0:ℚ) / 30) * 100) ∧
    calculate_strategy_score 0 (10/3) 0 = 167/100 := by
  have hscore : calculate_strategy_score 0 (10/3) 0 = 167/100 := by
    have hite : calculate_strategy_score 0 (10/3) 0 = roundTo2 ((5:ℚ)/3) := by
      simp only [calculate_strategy_score]
      rw [if_neg (by omega : ¬ ((30:ℤ) ≤ 0 ∧ (0:ℤ) ≤ 45)),
        if_pos (by omega : (0:ℤ) < 30)]
      congr 1
      norm_num [min_def, max_def]
    have hfl2 : ⌊(500:ℚ)/3⌋ = 166 := by
      rw [Int.floor_eq_iff]
      constructor <;> norm_num
    have hfr : Int.fract ((500:ℚ)/3) ≠ 1/2 := by
      have he : Int.fract ((500:ℚ)/3) = 500/3 - ((166:ℤ):ℚ) := by
        rw [← Int.self_sub_floor, hfl2]
      rw [he]
      norm_num
    have hfl : ⌊(500:ℚ)/3 + 1/2⌋ = 167 := by
      rw [show (500:ℚ)/3 + 1/2 = 1003/6 by norm_num, Int.floor_eq_iff]
      constructor <;> norm_num
    have h1 : roundTo2 ((5:ℚ)/3) = 167/100 := by
      rw [roundTo2, show (5:ℚ)/3 * 100 = 500/3 by norm_num, roundHalfEven,
        if_neg hfr, round_eq, hfl]
      norm_num
    rw [hite, h1]
  refine ⟨?_, hscore⟩
  rw [hscore]
  norm_num [min_def, max_def]

/-- Claim C8 amended: the score is the claimed weighted blend
0.3 * min(100, ROR * 2) + 0.5 * POP + 0.2 * time (with the time
component 100 for 30-45 days, (d / 30) * 100 floored at 0 below 30 days
and 100 - 2 * (d - 45) floored at 0 above 45 days), rounded to two
decimal places with Python's banker's rounding. -/
theorem c8_score_formula (ror pop : ℚ) (d : ℤ) :
    (30 ≤ d → d ≤ 45 →
      calculate_strategy_score ror pop d
        = roundTo2 (0.3 * min 100 (ror * 2) + 0.5 * pop + 0.2 * 100)) ∧
    (d < 30 →
      calculate_strategy_score ror pop d
        = roundTo2 (0.3 * min 100 (ror * 2) + 0.5 * pop
            + 0.2 * max 0 (((d : ℚ) / 30) * 100))) ∧
    (45 < d →
      calculate_strategy_score ror pop d
        = roundTo2 (0.3 * min 100 (ror * 2) + 0.5 * pop
            + 0.2 * max 0 (100 - ((d : ℚ) - 45) * 2))) := by
  refine ⟨fun hd1 hd2 => ?_, fun hd => ?_, fun hd => ?_⟩
  · simp only [calculate_strategy_score, if_pos (show 30 ≤ d ∧ d ≤ 45 from ⟨hd1, hd2⟩)]
    congr 1
    ring
  · have hn : ¬ (30 ≤ d ∧ d ≤ 45) := by omega
    simp only [calculate_strategy_score, if_neg hn, if_pos hd]
    congr 1
    ring
  · have hn : ¬ (30 ≤ d ∧ d ≤ 45) := by omega
    have hn2 : ¬ d < 30 := by omega
    simp only [calculate_strategy_score, if_neg hn, if_neg hn2]
    congr 1
    ring

/-- Claim C8 witness: the in-band instance at ROR = 50, POP = 60,
35 days to expiration. -/
theorem c8_score_formula_witness :
    (30:ℤ) ≤ 35 ∧ (35:ℤ) ≤ 45 ∧
    calculate_strategy_score 50 60 35
      = roundTo2 (0.3 * min 100 ((50:ℚ) * 2) + 0.5 * 60 + 0.2 * 100) :=
  ⟨by decide, by decide,
    (c8_score_formula 50 60 35).1 (by decide) (by decide)⟩
